import Mathlib

/-!
Verification development for the OpenFGA Check pipeline slice:
the server endpoint handlers (Server.Check, Server.resolveTypesystem,
NewServerWithOpts resolver wiring) and the BoundedConcurrencyTupleReader
storage wrapper.  Definitions are shallow embeddings of the Go source;
external collaborators that the source only calls into are modelled from
the specification and marked as such in their doc comments.
-/

/-! ## Sentinel errors seen by the server endpoint handlers

The server distinguishes resolution errors with errors.Is against these
sentinels (graph.ErrResolutionDepthExceeded, graph.ErrCycleDetected,
condition.ErrEvaluationFailed); any other error falls through to
serverErrors.HandleError. -/

/-- Errors that ResolveCheck can fail with, as discriminated by Server.Check. -/
inductive ResolveError where
  | errResolutionDepthExceeded
  | errCycleDetected
  | errEvaluationFailed
  | otherError
deriving DecidableEq

/-- Errors that the memoized typesystem resolver can fail with, as
discriminated by Server.resolveTypesystem. -/
inductive TypesystemError where
  | errModelNotFound
  | errInvalidModel
  | otherError
deriving DecidableEq

/-- User-visible errors produced by the serverErrors package constructors that
the embedded handlers call. -/
inductive ServerError where
  | authorizationModelResolutionTooComplex
  | validationError
  | latestAuthorizationModelNotFound (storeID : String)
  | authorizationModelNotFound (modelID : String)
  | handledInternalError
deriving DecidableEq

/-! ## Check resolution data model -/

/-- Metadata carried by a ResolveCheckResponse (graph.ResolveCheckResponse). -/
structure ResolutionMetadata where
  datastoreQueryCount : Nat
  dispatchCount : Nat
  cycleDetected : Bool
deriving DecidableEq

/-- The response of the resolver stack for one Check request. -/
structure ResolveCheckResponse where
  allowed : Bool
  resolutionMetadata : ResolutionMetadata
deriving DecidableEq

/-- The wire-level CheckResponse built by Server.Check: only the decision. -/
structure CheckResponse where
  allowed : Bool
deriving DecidableEq

/-- The error mapping performed by Server.Check after ResolveCheck fails:
depth-exceeded and cycle-detected errors map to
AuthorizationModelResolutionTooComplex, condition evaluation failures map to
a validation error, and anything else goes through HandleError. -/
def serverCheckMapError (err : ResolveError) : ServerError :=
  if err = ResolveError.errResolutionDepthExceeded ∨ err = ResolveError.errCycleDetected then
    ServerError.authorizationModelResolutionTooComplex
  else if err = ResolveError.errEvaluationFailed then
    ServerError.validationError
  else
    ServerError.handledInternalError

/-- The tail of Server.Check, from the ResolveCheck call onward: an error is
mapped by serverCheckMapError, a successful resolution is turned into a
CheckResponse carrying only the allowed bit. -/
def serverCheck (resolveOutcome : Except ResolveError ResolveCheckResponse) :
    Except ServerError CheckResponse :=
  match resolveOutcome with
  | Except.error err => Except.error (serverCheckMapError err)
  | Except.ok resp => Except.ok { allowed := resp.allowed }

/-- Modelled from the spec: graph.NewCycleDetectionCheckResolver is not under
src/ (only its caller NewServerWithOpts and the error mapping in Server.Check
are).  Per the spec, on detecting that the current fingerprint is already on
the resolution path the resolver returns the decision
allowed=false with cycleDetected=true and does NOT return an error. -/
def cycleDetectionResolveOnCycle : Except ResolveError ResolveCheckResponse :=
  Except.ok
    { allowed := false
      resolutionMetadata :=
        { datastoreQueryCount := 0, dispatchCount := 0, cycleDetected := true } }

/-! ## Typesystem resolution (Server.resolveTypesystem) -/

/-- The typesystem structure, reduced to the field the server reads back. -/
structure TypeSystem where
  authorizationModelID : String
deriving DecidableEq

/-- Server.resolveTypesystem: the underlying memoized resolver outcome is a
parameter (the typesystem package is an external collaborator); the embedded
part is the error discrimination the server performs on it. -/
def resolveTypesystem (storeID modelID : String)
    (resolverOutcome : Except TypesystemError TypeSystem) :
    Except ServerError TypeSystem :=
  match resolverOutcome with
  | Except.ok typesys => Except.ok typesys
  | Except.error TypesystemError.errModelNotFound =>
      if modelID = "" then
        Except.error (ServerError.latestAuthorizationModelNotFound storeID)
      else
        Except.error (ServerError.authorizationModelNotFound modelID)
  | Except.error TypesystemError.errInvalidModel =>
      Except.error ServerError.validationError
  | Except.error TypesystemError.otherError =>
      Except.error ServerError.handledInternalError

/-! ## Resolver wiring built by NewServerWithOpts -/

/-- The three resolvers allocated by NewServerWithOpts. -/
inductive ResolverTag where
  | cycleDetectionResolver
  | cachedResolver
  | localCheckerResolver
deriving DecidableEq

/-- One SetDelegate call: point update of the delegate map. -/
def setDelegate (m : ResolverTag → Option ResolverTag) (r d : ResolverTag) :
    ResolverTag → Option ResolverTag :=
  fun x => if x = r then some d else m x

/-- The resolver wiring performed by NewServerWithOpts, following the source
statement by statement: the cycle detection resolver becomes s.checkResolver
(the entry point), its delegate is set to the local checker, the local
checker delegates back to the cycle detection resolver, and when the check
query cache is enabled a cached resolver is inserted between cycle detection
and the local checker.  Returns (entry point, delegate map). -/
def NewServerWithOpts_wiring (checkQueryCacheEnabled : Bool) :
    ResolverTag × (ResolverTag → Option ResolverTag) :=
  let delegates : ResolverTag → Option ResolverTag := fun _ => none
  let entry := ResolverTag.cycleDetectionResolver
  let delegates := setDelegate delegates ResolverTag.cycleDetectionResolver
      ResolverTag.localCheckerResolver
  let delegates := setDelegate delegates ResolverTag.localCheckerResolver
      ResolverTag.cycleDetectionResolver
  let delegates :=
    if checkQueryCacheEnabled then
      setDelegate
        (setDelegate delegates ResolverTag.cachedResolver ResolverTag.localCheckerResolver)
        ResolverTag.cycleDetectionResolver ResolverTag.cachedResolver
    else delegates
  (entry, delegates)

/-! ## BoundedConcurrencyTupleReader: multi-call small-step semantics

Each in-flight call to one of the four read methods is a thread.  A call
first enters waitForLimiter (phase waiting), where the select either sends an
item on the buffered limiter channel of capacity N (phase reading, wrapped
reader invoked with the slot held) or observes ctx.Done() and returns the
context error without ever taking a slot (phase aborted).  When the wrapped
reader returns, the deferred receive on the limiter fires at method return:
the slot is released and the (lazy) result is handed to the caller (phase
returned); the caller may then drain the iterator (phases draining, done)
with no slot held. -/

/-- The phases of one call to a read method of BoundedConcurrencyTupleReader. -/
inductive Phase where
  | idle
  | waiting
  | reading
  | returned
  | draining
  | done
  | aborted
deriving DecidableEq

/-- What a read method call hands back to its caller. -/
inductive CallResult where
  | value
  | ctxCancellationErr
deriving DecidableEq

/-- One in-flight (or finished) call to a read method. -/
structure ReaderThread where
  phase : Phase
  cancelled : Bool
  invokedWrapped : Bool
  result : Option CallResult
deriving DecidableEq

/-- Global state: the number of items in the limiter channel (slots taken)
and the per-call thread states. -/
structure ReaderPoolState where
  limiter : Nat
  threads : List ReaderThread
deriving DecidableEq

/-- A thread holds a semaphore slot exactly while the wrapped read executes. -/
def holdsSlot (t : ReaderThread) : Bool :=
  match t.phase with
  | Phase.reading => true
  | _ => false

/-- Number of wrapped reads executing concurrently. -/
def countHolding (s : ReaderPoolState) : Nat :=
  s.threads.countP holdsSlot

/-- A call that has not started yet. -/
def initThread : ReaderThread :=
  { phase := Phase.idle, cancelled := false, invokedWrapped := false, result := none }

/-- Initial state: empty limiter channel, k calls not yet started. -/
def initState (k : Nat) : ReaderPoolState :=
  { limiter := 0, threads := List.replicate k initThread }

/-- Small-step transition relation of the bounded reader with capacity N. -/
inductive ReaderStep (N : Nat) : ReaderPoolState → ReaderPoolState → Prop where
  | start {s : ReaderPoolState} (i : Nat) (t : ReaderThread)
      (hget : s.threads.get? i = some t) (hph : t.phase = Phase.idle) :
      ReaderStep N s
        { s with threads := s.threads.set i { t with phase := Phase.waiting } }
  | cancelCtx {s : ReaderPoolState} (i : Nat) (t : ReaderThread)
      (hget : s.threads.get? i = some t) :
      ReaderStep N s
        { s with threads := s.threads.set i { t with cancelled := true } }
  | acquire {s : ReaderPoolState} (i : Nat) (t : ReaderThread)
      (hget : s.threads.get? i = some t) (hph : t.phase = Phase.waiting)
      (hfree : s.limiter < N) :
      ReaderStep N s
        { limiter := s.limiter + 1
          threads := s.threads.set i
            { t with phase := Phase.reading, invokedWrapped := true } }
  | abortCancelled {s : ReaderPoolState} (i : Nat) (t : ReaderThread)
      (hget : s.threads.get? i = some t) (hph : t.phase = Phase.waiting)
      (hc : t.cancelled = true) :
      ReaderStep N s
        { limiter := s.limiter
          threads := s.threads.set i
            { t with phase := Phase.aborted, result := some CallResult.ctxCancellationErr } }
  | finishRead {s : ReaderPoolState} (i : Nat) (t : ReaderThread)
      (hget : s.threads.get? i = some t) (hph : t.phase = Phase.reading) :
      ReaderStep N s
        { limiter := s.limiter - 1
          threads := s.threads.set i
            { t with phase := Phase.returned, result := some CallResult.value } }
  | drainStart {s : ReaderPoolState} (i : Nat) (t : ReaderThread)
      (hget : s.threads.get? i = some t) (hph : t.phase = Phase.returned) :
      ReaderStep N s
        { s with threads := s.threads.set i { t with phase := Phase.draining } }
  | drainEnd {s : ReaderPoolState} (i : Nat) (t : ReaderThread)
      (hget : s.threads.get? i = some t) (hph : t.phase = Phase.draining) :
      ReaderStep N s
        { s with threads := s.threads.set i { t with phase := Phase.done } }

/-- States reachable from the all-idle initial state with k calls. -/
def ReaderReachable (N k : Nat) (s : ReaderPoolState) : Prop :=
  Relation.ReflTransGen (ReaderStep N) (initState k) s

/-- Per-thread invariant tying phases to results and wrapped-reader
invocation. -/
def threadInv (t : ReaderThread) : Prop :=
  (t.phase = Phase.aborted →
      t.result = some CallResult.ctxCancellationErr ∧ t.invokedWrapped = false ∧
        t.cancelled = true) ∧
  ((t.phase = Phase.idle ∨ t.phase = Phase.waiting) →
      t.invokedWrapped = false ∧ t.result = none) ∧
  (t.phase = Phase.reading → t.invokedWrapped = true ∧ t.result = none) ∧
  ((t.phase = Phase.returned ∨ t.phase = Phase.draining ∨ t.phase = Phase.done) →
      t.result = some CallResult.value ∧ t.invokedWrapped = true)

/-- Global invariant: the limiter counts exactly the threads whose wrapped
read is executing, never exceeds the capacity, and every thread satisfies
its phase invariant. -/
def stateInv (N : Nat) (s : ReaderPoolState) : Prop :=
  countHolding s = s.limiter ∧ s.limiter ≤ N ∧ ∀ t ∈ s.threads, threadInv t

/-! ## waitForLimiter and the read methods, single-call functional view

For the per-call contracts (context cancellation outcome, observability) we
embed one call to a read method as a function of the branch by which the
select in waitForLimiter resolves.  The deferred block of waitForLimiter runs
on every exit path: it observes the bounded-read-delay histogram with the RPC
service and method labels taken from the context, and sets the time_waiting
attribute on the current tracing span. -/

/-- Name of the tracing span attribute set by waitForLimiter. -/
def timeWaitingSpanAttribute : String := "time_waiting"

/-- RPC info extracted from the request context by telemetry.RPCInfoFromContext. -/
structure RPCInfo where
  service : String
  method : String
deriving DecidableEq

/-- The observable side effects of one waitForLimiter call: labelled
observations added to the boundedReadDelayMsHistogram and attributes set on
the current tracing span. -/
structure LimiterEffects where
  histogramObservations : List (String × String)
  spanAttributes : List String
deriving DecidableEq

/-- The branch by which the select in waitForLimiter resolves. -/
inductive SelectBranch where
  | ctxDone
  | limiterSend
deriving DecidableEq

/-- A select branch can resolve only when it is ready: ctx.Done() when the
context is cancelled, the limiter send when a slot is available.  When both
are ready one is selected at random (note in the source). -/
def SelectBranchReady (cancelled slotAvailable : Bool) : SelectBranch → Prop
  | SelectBranch.ctxDone => cancelled = true
  | SelectBranch.limiterSend => slotAvailable = true

/-- The error returned by ctx.Err() for a cancelled or deadline-expired
context. -/
inductive CtxError where
  | cancellationErr
deriving DecidableEq

/-- waitForLimiter: resolves the select on the given branch and returns
ctx.Err() on the ctx.Done() branch, nil on a successful send; the deferred
block records the wait duration in the histogram (labelled with the RPC
service and method from the context) and sets the time_waiting span
attribute on every exit path. -/
def waitForLimiter (branch : SelectBranch) (info : RPCInfo) :
    Option CtxError × LimiterEffects :=
  let effects : LimiterEffects :=
    { histogramObservations := [(info.service, info.method)]
      spanAttributes := [timeWaitingSpanAttribute] }
  match branch with
  | SelectBranch.ctxDone => (some CtxError.cancellationErr, effects)
  | SelectBranch.limiterSend => (none, effects)

/-- A relationship tuple key (object, relation, user). -/
structure TupleKey where
  object : String
  relation : String
  user : String
deriving DecidableEq

/-- Shared shape of the four read methods: call waitForLimiter; on error
return it without invoking the wrapped reader, otherwise return the wrapped
reader result (releasing the slot at method return). -/
def boundedReadCall {α : Type} (branch : SelectBranch) (info : RPCInfo)
    (wrapped : Except CtxError α) : Except CtxError α × LimiterEffects :=
  match waitForLimiter branch info with
  | (some err, effects) => (Except.error err, effects)
  | (none, effects) => (wrapped, effects)

/-- BoundedConcurrencyTupleReader.ReadUserTuple. -/
def BoundedReadUserTuple (branch : SelectBranch) (info : RPCInfo)
    (wrapped : Except CtxError (Option TupleKey)) :
    Except CtxError (Option TupleKey) × LimiterEffects :=
  boundedReadCall branch info wrapped

/-- BoundedConcurrencyTupleReader.Read. -/
def BoundedRead (branch : SelectBranch) (info : RPCInfo)
    (wrapped : Except CtxError (List TupleKey)) :
    Except CtxError (List TupleKey) × LimiterEffects :=
  boundedReadCall branch info wrapped

/-- BoundedConcurrencyTupleReader.ReadUsersetTuples. -/
def BoundedReadUsersetTuples (branch : SelectBranch) (info : RPCInfo)
    (wrapped : Except CtxError (List TupleKey)) :
    Except CtxError (List TupleKey) × LimiterEffects :=
  boundedReadCall branch info wrapped

/-- BoundedConcurrencyTupleReader.ReadStartingWithUser. -/
def BoundedReadStartingWithUser (branch : SelectBranch) (info : RPCInfo)
    (wrapped : Except CtxError (List TupleKey)) :
    Except CtxError (List TupleKey) × LimiterEffects :=
  boundedReadCall branch info wrapped

/-- Modelled from the spec: the wrapped datastore reader is an external
collaborator whose reads honor context cancellation, so under a cancelled
context it returns the context cancellation error rather than data. -/
def wrappedHonorsCancellation {α : Type} (cancelled : Bool)
    (wrapped : Except CtxError α) : Prop :=
  cancelled = true → wrapped = Except.error CtxError.cancellationErr

/-! ## Concrete execution traces used as witnesses -/

/-- Concrete identifiers used in witness instantiations. -/
def exampleStoreID : String := "01HVKXN2P0"

/-- A concrete authorization model identifier. -/
def exampleModelID : String := "01HVKXN7J1"

/-- Trace A, capacity 1, two calls: call 0 waiting. -/
def sA1 : ReaderPoolState :=
  { limiter := 0
    threads := [⟨Phase.waiting, false, false, none⟩, initThread] }

/-- Trace A: call 0 admitted, wrapped read in flight, slot held. -/
def sA2 : ReaderPoolState :=
  { limiter := 1
    threads := [⟨Phase.reading, false, true, none⟩, initThread] }

/-- Trace A: wrapped read of call 0 returned its lazy iterator; the deferred
receive released the slot at method return, before any draining. -/
def sA3 : ReaderPoolState :=
  { limiter := 0
    threads := [⟨Phase.returned, false, true, some CallResult.value⟩, initThread] }

/-- Trace A: the caller of call 0 starts draining the iterator. -/
def sA4 : ReaderPoolState :=
  { limiter := 0
    threads := [⟨Phase.draining, false, true, some CallResult.value⟩, initThread] }

/-- Trace A: call 1 enters waitForLimiter while call 0 is still draining. -/
def sA5 : ReaderPoolState :=
  { limiter := 0
    threads := [⟨Phase.draining, false, true, some CallResult.value⟩,
                ⟨Phase.waiting, false, false, none⟩] }

/-- Trace A: call 1 is admitted (capacity 1) while call 0 still drains its
iterator: consumption does not count against the concurrency bound. -/
def sA6 : ReaderPoolState :=
  { limiter := 1
    threads := [⟨Phase.draining, false, true, some CallResult.value⟩,
                ⟨Phase.reading, false, true, none⟩] }

/-- Trace B, capacity 1, one call: the call is waiting in the select. -/
def sB1 : ReaderPoolState :=
  { limiter := 0, threads := [⟨Phase.waiting, false, false, none⟩] }

/-- Trace B: the request context is cancelled while the call waits. -/
def sB2 : ReaderPoolState :=
  { limiter := 0, threads := [⟨Phase.waiting, true, false, none⟩] }

/-- The aborted call of trace B. -/
def tB3 : ReaderThread :=
  ⟨Phase.aborted, true, false, some CallResult.ctxCancellationErr⟩

/-- Trace B: the wait aborts with the context cancellation error, holding no
slot and never invoking the wrapped reader. -/
def sB3 : ReaderPoolState :=
  { limiter := 0, threads := [tB3] }

theorem countP_set_get? {α : Type} (p : α → Bool) :
    ∀ (l : List α) (i : Nat) (t t₁ : α), l.get? i = some t →
      (l.set i t₁).countP p + (if p t then 1 else 0)
        = l.countP p + (if p t₁ then 1 else 0) := by
  intro l
  induction l with
  | nil => intro i t t₁ h; simp at h
  | cons a l ih =>
      intro i t t₁ h
      cases i with
      | zero =>
          rw [List.get?_cons_zero] at h
          injection h with h
          subst h
          rw [List.set_cons_zero, List.countP_cons, List.countP_cons]
          omega
      | succ n =>
          rw [List.get?_cons_succ] at h
          have := ih n t t₁ h
          rw [List.set_cons_succ, List.countP_cons, List.countP_cons]
          omega

theorem stateInv_init (N k : Nat) : stateInv N (initState k) := by
  refine ⟨?_, Nat.zero_le N, ?_⟩
  · show (List.replicate k initThread).countP holdsSlot = 0
    rw [List.countP_eq_zero]
    intro t ht
    have hrep : t = initThread := List.eq_of_mem_replicate ht
    subst hrep
    simp [holdsSlot, initThread]
  · intro t ht
    have hrep : t = initThread :=
      List.eq_of_mem_replicate (by simpa [initState] using ht)
    subst hrep
    simp [threadInv, initThread]

theorem forall_mem_set {l : List ReaderThread} {t₁ : ReaderThread}
    (h : ∀ t ∈ l, threadInv t) (h₁ : threadInv t₁) (i : Nat) :
    ∀ t ∈ l.set i t₁, threadInv t := by
  intro x hx
  rcases List.mem_or_eq_of_mem_set hx with hxl | rfl
  · exact h x hxl
  · exact h₁

theorem stateInv_step {N : Nat} {s s₁ : ReaderPoolState}
    (hs : stateInv N s) (hstep : ReaderStep N s s₁) : stateInv N s₁ := by
  obtain ⟨hcount, hlim, hthreads⟩ := hs
  rw [countHolding] at hcount
  cases hstep with
  | start i t hget hph =>
      have ht := hthreads t (List.get?_mem hget)
      have hcnt := countP_set_get? holdsSlot s.threads i t
        { t with phase := Phase.waiting } hget
      have hs1 : holdsSlot t = false := by simp [holdsSlot, hph]
      have hs2 : holdsSlot { t with phase := Phase.waiting } = false := by
        simp [holdsSlot]
      simp [hs1, hs2] at hcnt
      refine ⟨?_, hlim, forall_mem_set hthreads ?_ i⟩
      · show (s.threads.set i { t with phase := Phase.waiting }).countP holdsSlot
          = s.limiter
        omega
      · refine ⟨?_, ?_, ?_, ?_⟩
        · intro h; exact Phase.noConfusion h
        · intro _; exact ht.2.1 (Or.inl hph)
        · intro h; exact Phase.noConfusion h
        · intro h; rcases h with h | h | h <;> exact Phase.noConfusion h
  | cancelCtx i t hget =>
      have ht := hthreads t (List.get?_mem hget)
      have hcnt := countP_set_get? holdsSlot s.threads i t
        { t with cancelled := true } hget
      have hs2 : holdsSlot { t with cancelled := true } = holdsSlot t := by
        simp [holdsSlot]
      rw [hs2] at hcnt
      refine ⟨?_, hlim, forall_mem_set hthreads ?_ i⟩
      · show (s.threads.set i { t with cancelled := true }).countP holdsSlot
          = s.limiter
        omega
      · refine ⟨?_, ?_, ?_, ?_⟩
        · intro h
          exact ⟨(ht.1 h).1, (ht.1 h).2.1, rfl⟩
        · intro h; exact ht.2.1 h
        · intro h; exact ht.2.2.1 h
        · intro h; exact ht.2.2.2 h
  | acquire i t hget hph hfree =>
      have ht := hthreads t (List.get?_mem hget)
      have hcnt := countP_set_get? holdsSlot s.threads i t
        { t with phase := Phase.reading, invokedWrapped := true } hget
      have hs1 : holdsSlot t = false := by simp [holdsSlot, hph]
      have hs2 : holdsSlot { t with phase := Phase.reading, invokedWrapped := true }
          = true := by simp [holdsSlot]
      simp [hs1, hs2] at hcnt
      refine ⟨?_, by show s.limiter + 1 ≤ N; omega, forall_mem_set hthreads ?_ i⟩
      · show (s.threads.set i
            { t with phase := Phase.reading, invokedWrapped := true }).countP holdsSlot
          = s.limiter + 1
        omega
      · refine ⟨?_, ?_, ?_, ?_⟩
        · intro h; exact Phase.noConfusion h
        · intro h; rcases h with h | h <;> exact Phase.noConfusion h
        · intro _; exact ⟨rfl, (ht.2.1 (Or.inr hph)).2⟩
        · intro h; rcases h with h | h | h <;> exact Phase.noConfusion h
  | abortCancelled i t hget hph hc =>
      have ht := hthreads t (List.get?_mem hget)
      have hcnt := countP_set_get? holdsSlot s.threads i t
        { t with phase := Phase.aborted, result := some CallResult.ctxCancellationErr }
        hget
      have hs1 : holdsSlot t = false := by simp [holdsSlot, hph]
      have hs2 : holdsSlot
          { t with phase := Phase.aborted, result := some CallResult.ctxCancellationErr }
          = false := by simp [holdsSlot]
      simp [hs1, hs2] at hcnt
      refine ⟨?_, hlim, forall_mem_set hthreads ?_ i⟩
      · show (s.threads.set i
            { t with phase := Phase.aborted
                     result := some CallResult.ctxCancellationErr }).countP holdsSlot
          = s.limiter
        omega
      · refine ⟨?_, ?_, ?_, ?_⟩
        · intro _; exact ⟨rfl, (ht.2.1 (Or.inr hph)).1, hc⟩
        · intro h; rcases h with h | h <;> exact Phase.noConfusion h
        · intro h; exact Phase.noConfusion h
        · intro h; rcases h with h | h | h <;> exact Phase.noConfusion h
  | finishRead i t hget hph =>
      have ht := hthreads t (List.get?_mem hget)
      have hcnt := countP_set_get? holdsSlot s.threads i t
        { t with phase := Phase.returned, result := some CallResult.value } hget
      have hs1 : holdsSlot t = true := by simp [holdsSlot, hph]
      have hs2 : holdsSlot
          { t with phase := Phase.returned, result := some CallResult.value }
          = false := by simp [holdsSlot]
      simp [hs1, hs2] at hcnt
      refine ⟨?_, by show s.limiter - 1 ≤ N; omega, forall_mem_set hthreads ?_ i⟩
      · show (s.threads.set i
            { t with phase := Phase.returned, result := some CallResult.value }).countP
            holdsSlot
          = s.limiter - 1
        omega
      · refine ⟨?_, ?_, ?_, ?_⟩
        · intro h; exact Phase.noConfusion h
        · intro h; rcases h with h | h <;> exact Phase.noConfusion h
        · intro h; exact Phase.noConfusion h
        · intro _; exact ⟨rfl, (ht.2.2.1 hph).1⟩
  | drainStart i t hget hph =>
      have ht := hthreads t (List.get?_mem hget)
      have hcnt := countP_set_get? holdsSlot s.threads i t
        { t with phase := Phase.draining } hget
      have hs1 : holdsSlot t = false := by simp [holdsSlot, hph]
      have hs2 : holdsSlot { t with phase := Phase.draining } = false := by
        simp [holdsSlot]
      simp [hs1, hs2] at hcnt
      refine ⟨?_, hlim, forall_mem_set hthreads ?_ i⟩
      · show (s.threads.set i { t with phase := Phase.draining }).countP holdsSlot
          = s.limiter
        omega
      · refine ⟨?_, ?_, ?_, ?_⟩
        · intro h; exact Phase.noConfusion h
        · intro h; rcases h with h | h <;> exact Phase.noConfusion h
        · intro h; exact Phase.noConfusion h
        · intro _; exact ht.2.2.2 (Or.inl hph)
  | drainEnd i t hget hph =>
      have ht := hthreads t (List.get?_mem hget)
      have hcnt := countP_set_get? holdsSlot s.threads i t
        { t with phase := Phase.done } hget
      have hs1 : holdsSlot t = false := by simp [holdsSlot, hph]
      have hs2 : holdsSlot { t with phase := Phase.done } = false := by
        simp [holdsSlot]
      simp [hs1, hs2] at hcnt
      refine ⟨?_, hlim, forall_mem_set hthreads ?_ i⟩
      · show (s.threads.set i { t with phase := Phase.done }).countP holdsSlot
          = s.limiter
        omega
      · refine ⟨?_, ?_, ?_, ?_⟩
        · intro h; exact Phase.noConfusion h
        · intro h; rcases h with h | h <;> exact Phase.noConfusion h
        · intro h; exact Phase.noConfusion h
        · intro _; exact ht.2.2.2 (Or.inr (Or.inl hph))

theorem stateInv_reachable {N k : Nat} {s : ReaderPoolState}
    (h : ReaderReachable N k s) : stateInv N s := by
  induction h with
  | refl => exact stateInv_init N k
  | tail _ hstep ih => exact stateInv_step ih hstep

theorem reachA6 : ReaderReachable 1 2 sA6 := by
  have h1 : ReaderReachable 1 2 sA1 :=
    Relation.ReflTransGen.tail Relation.ReflTransGen.refl
      (ReaderStep.start 0 initThread rfl rfl)
  have h2 : ReaderReachable 1 2 sA2 :=
    Relation.ReflTransGen.tail h1
      (ReaderStep.acquire 0 ⟨Phase.waiting, false, false, none⟩ rfl rfl
        (Nat.zero_lt_one))
  have h3 : ReaderReachable 1 2 sA3 :=
    Relation.ReflTransGen.tail h2
      (ReaderStep.finishRead 0 ⟨Phase.reading, false, true, none⟩ rfl rfl)
  have h4 : ReaderReachable 1 2 sA4 :=
    Relation.ReflTransGen.tail h3
      (ReaderStep.drainStart 0 ⟨Phase.returned, false, true, some CallResult.value⟩
        rfl rfl)
  have h5 : ReaderReachable 1 2 sA5 :=
    Relation.ReflTransGen.tail h4
      (ReaderStep.start 1 initThread rfl rfl)
  exact Relation.ReflTransGen.tail h5
    (ReaderStep.acquire 1 ⟨Phase.waiting, false, false, none⟩ rfl rfl
      (Nat.zero_lt_one))

theorem reachB3 : ReaderReachable 1 1 sB3 := by
  have h1 : ReaderReachable 1 1 sB1 :=
    Relation.ReflTransGen.tail Relation.ReflTransGen.refl
      (ReaderStep.start 0 initThread rfl rfl)
  have h2 : ReaderReachable 1 1 sB2 :=
    Relation.ReflTransGen.tail h1
      (ReaderStep.cancelCtx 0 ⟨Phase.waiting, false, false, none⟩ rfl)
  exact Relation.ReflTransGen.tail h2
    (ReaderStep.abortCancelled 0 ⟨Phase.waiting, true, false, none⟩ rfl rfl rfl)

/-! ## Claim theorems -/

/-- Claim C1: for every workload (any number of calls k, any interleaving
reachable from the initial state) and every configured limit N, the
BoundedConcurrencyTupleReader admits at most N concurrent wrapped reads:
every read method takes a slot from the capacity-N limiter channel before
invoking the wrapped reader and releases it on return, so in every reachable
state the number of wrapped reads executing concurrently is at most N. -/
theorem BoundedConcurrencyTupleReader_admits_at_most_N {N k : Nat}
    {s : ReaderPoolState} (h : ReaderReachable N k s) :
    countHolding s ≤ N := by
  obtain ⟨h1, h2, -⟩ := stateInv_reachable h
  omega

/-- Witness for C1: the concrete two-call trace under capacity 1 satisfies
the bound at its final state. -/
theorem BoundedConcurrencyTupleReader_admits_at_most_N_witness :
    countHolding sA6 ≤ 1 :=
  BoundedConcurrencyTupleReader_admits_at_most_N reachA6

/-- Claim C6: a read call whose wait on the limiter is aborted by context
cancellation returns the context cancellation error, never invoked the
wrapped reader, holds no semaphore slot, and does not count against the
concurrency limit (the limiter still counts exactly the executing wrapped
reads). -/
theorem BoundedConcurrencyTupleReader_cancelled_wait_aborts {N k : Nat}
    {s : ReaderPoolState} (h : ReaderReachable N k s) {i : Nat} {t : ReaderThread}
    (hget : s.threads.get? i = some t) (hph : t.phase = Phase.aborted) :
    t.result = some CallResult.ctxCancellationErr ∧ t.invokedWrapped = false ∧
      t.cancelled = true ∧ holdsSlot t = false ∧ countHolding s = s.limiter := by
  have hi := stateInv_reachable h
  have ht := hi.2.2 t (List.get?_mem hget)
  obtain ⟨hr, hw, hc⟩ := ht.1 hph
  exact ⟨hr, hw, hc, by simp [holdsSlot, hph], hi.1⟩

/-- Witness for C6: in trace B the single call was cancelled while waiting
and aborted. -/
theorem BoundedConcurrencyTupleReader_cancelled_wait_aborts_witness :
    tB3.result = some CallResult.ctxCancellationErr ∧ tB3.invokedWrapped = false ∧
      tB3.cancelled = true ∧ holdsSlot tB3 = false ∧
      countHolding sB3 = sB3.limiter :=
  BoundedConcurrencyTupleReader_cancelled_wait_aborts reachB3 (i := 0) rfl rfl

/-- Claim C10: the semaphore slot is released when a read method returns its
lazy result, before the caller drains it: a call that has returned its
iterator (or whose caller is draining it) holds no slot, and in every
reachable state the limiter counts only calls whose wrapped read is still
being issued, not iterator consumption. -/
theorem BoundedConcurrencyTupleReader_releases_slot_before_drain {N k : Nat}
    {s : ReaderPoolState} (h : ReaderReachable N k s) {i : Nat} {t : ReaderThread}
    (hget : s.threads.get? i = some t)
    (hph : t.phase = Phase.returned ∨ t.phase = Phase.draining) :
    t.result = some CallResult.value ∧ holdsSlot t = false ∧
      countHolding s = s.limiter := by
  have hi := stateInv_reachable h
  have ht := hi.2.2 t (List.get?_mem hget)
  refine ⟨?_, ?_, hi.1⟩
  · rcases hph with hph | hph
    · exact (ht.2.2.2 (Or.inl hph)).1
    · exact (ht.2.2.2 (Or.inr (Or.inl hph))).1
  · rcases hph with hph | hph <;> simp [holdsSlot, hph]

/-- Witness for C10: in trace A, under capacity 1, call 0 has handed back its
iterator and is being drained while call 1 is concurrently admitted for its
wrapped read; call 0 holds no slot. -/
theorem BoundedConcurrencyTupleReader_releases_slot_before_drain_witness :
    (⟨Phase.draining, false, true, some CallResult.value⟩ : ReaderThread).result
        = some CallResult.value ∧
      holdsSlot (⟨Phase.draining, false, true, some CallResult.value⟩ : ReaderThread)
        = false ∧
      countHolding sA6 = sA6.limiter :=
  BoundedConcurrencyTupleReader_releases_slot_before_drain reachA6
    (i := 0) rfl (Or.inr rfl)

/-- Claim C7: under a cancelled or deadline-expired context, the cancellation
branch of the select in waitForLimiter is ready before the admission
suspension point; whatever branch actually resolves, the read call returns
the context cancellation error and no data — the select returns ctx.Err()
directly, or the wrapped reader (which honors cancellation) returns it.
A blocked acquirer (no slot available) can only resolve on the cancellation
branch. -/
theorem BoundedConcurrencyTupleReader_cancelled_context_returns_ctx_error
    (slotAvailable : Bool) (branch : SelectBranch)
    (hready : SelectBranchReady true slotAvailable branch) (info : RPCInfo)
    (wrapped : Except CtxError (List TupleKey))
    (hw : wrappedHonorsCancellation true wrapped) :
    (BoundedRead branch info wrapped).1 = Except.error CtxError.cancellationErr ∧
      SelectBranchReady true slotAvailable SelectBranch.ctxDone ∧
      (∀ b : SelectBranch, SelectBranchReady true false b → b = SelectBranch.ctxDone) := by
  refine ⟨?_, rfl, ?_⟩
  · cases branch with
    | ctxDone => rfl
    | limiterSend =>
        show wrapped = Except.error CtxError.cancellationErr
        exact hw rfl
  · intro b hb
    cases b with
    | ctxDone => rfl
    | limiterSend => exact absurd hb (by simp [SelectBranchReady])

/-- Witness for C7: a cancelled context where a slot is also free and the
send branch wins the random selection still yields the cancellation error. -/
theorem BoundedConcurrencyTupleReader_cancelled_context_returns_ctx_error_witness :
    (BoundedRead SelectBranch.limiterSend
          { service := exampleStoreID, method := exampleModelID }
          (Except.error CtxError.cancellationErr)).1
        = Except.error CtxError.cancellationErr ∧
      SelectBranchReady true true SelectBranch.ctxDone ∧
      (∀ b : SelectBranch, SelectBranchReady true false b → b = SelectBranch.ctxDone) :=
  BoundedConcurrencyTupleReader_cancelled_context_returns_ctx_error true
    SelectBranch.limiterSend rfl
    { service := exampleStoreID, method := exampleModelID }
    (Except.error CtxError.cancellationErr) (fun _ => rfl)

/-- Claim C9: every call to a read method of BoundedConcurrencyTupleReader,
whether admission succeeds or the wait is aborted by cancellation, records
the wait duration exactly once in the bounded-read-delay histogram, labelled
with the RPC service and method taken from the context, and sets the
time_waiting attribute on the current tracing span. -/
theorem BoundedConcurrencyTupleReader_records_wait_exactly_once
    (branch : SelectBranch) (info : RPCInfo)
    (w₁ : Except CtxError (Option TupleKey))
    (w₂ w₃ w₄ : Except CtxError (List TupleKey)) :
    (BoundedReadUserTuple branch info w₁).2
        = ⟨[(info.service, info.method)], [timeWaitingSpanAttribute]⟩ ∧
      (BoundedRead branch info w₂).2
        = ⟨[(info.service, info.method)], [timeWaitingSpanAttribute]⟩ ∧
      (BoundedReadUsersetTuples branch info w₃).2
        = ⟨[(info.service, info.method)], [timeWaitingSpanAttribute]⟩ ∧
      (BoundedReadStartingWithUser branch info w₄).2
        = ⟨[(info.service, info.method)], [timeWaitingSpanAttribute]⟩ := by
  cases branch <;> exact ⟨rfl, rfl, rfl, rfl⟩

/-- Claim C2: a detected cycle yields the decision allowed=false with
cycleDetected=true from the resolver stack, and Server.Check passes it on as
a successful CheckResponse with allowed=false — not as a non-nil error. -/
theorem Check_cycle_is_decision_not_error :
    (∃ resp, cycleDetectionResolveOnCycle = Except.ok resp ∧ resp.allowed = false ∧
        resp.resolutionMetadata.cycleDetected = true) ∧
      serverCheck cycleDetectionResolveOnCycle = Except.ok { allowed := false } :=
  ⟨⟨_, rfl, rfl, rfl⟩, rfl⟩

/-- Claim C3: the resolver topology configured by NewServerWithOpts: the
entry point is always the cycle detection resolver; the local checker always
dispatches recursively back to the cycle detection resolver; with the query
cache enabled, cycle detection delegates to the cached resolver which
delegates to the local checker; with it disabled, cycle detection delegates
directly to the local checker. -/
theorem NewServerWithOpts_resolver_topology (checkQueryCacheEnabled : Bool) :
    (NewServerWithOpts_wiring checkQueryCacheEnabled).1
        = ResolverTag.cycleDetectionResolver ∧
      (NewServerWithOpts_wiring checkQueryCacheEnabled).2
          ResolverTag.localCheckerResolver
        = some ResolverTag.cycleDetectionResolver ∧
      (checkQueryCacheEnabled = true →
        (NewServerWithOpts_wiring checkQueryCacheEnabled).2
            ResolverTag.cycleDetectionResolver
          = some ResolverTag.cachedResolver ∧
        (NewServerWithOpts_wiring checkQueryCacheEnabled).2 ResolverTag.cachedResolver
          = some ResolverTag.localCheckerResolver) ∧
      (checkQueryCacheEnabled = false →
        (NewServerWithOpts_wiring checkQueryCacheEnabled).2
            ResolverTag.cycleDetectionResolver
          = some ResolverTag.localCheckerResolver) := by
  cases checkQueryCacheEnabled with
  | false =>
      exact ⟨rfl, by decide, fun h => by simp at h, fun _ => by decide⟩
  | true =>
      exact ⟨rfl, by decide, fun _ => ⟨by decide, by decide⟩, fun h => by simp at h⟩

/-- Witness for C3: both cache configurations, instantiated. -/
theorem NewServerWithOpts_resolver_topology_witness :
    ((NewServerWithOpts_wiring true).2 ResolverTag.cycleDetectionResolver
        = some ResolverTag.cachedResolver ∧
      (NewServerWithOpts_wiring true).2 ResolverTag.cachedResolver
        = some ResolverTag.localCheckerResolver) ∧
      (NewServerWithOpts_wiring false).2 ResolverTag.cycleDetectionResolver
        = some ResolverTag.localCheckerResolver :=
  ⟨(NewServerWithOpts_resolver_topology true).2.2.1 rfl,
   (NewServerWithOpts_resolver_topology false).2.2.2 rfl⟩

/-- Claim C4: when resolution fails with ErrResolutionDepthExceeded,
Server.Check returns the user-visible AuthorizationModelResolutionTooComplex
error and no decision. -/
theorem Check_depth_exceeded_is_too_complex :
    serverCheck (Except.error ResolveError.errResolutionDepthExceeded)
      = Except.error ServerError.authorizationModelResolutionTooComplex :=
  rfl

/-- Claim C5: when resolution fails because a tuple condition expression
could not be evaluated, Server.Check surfaces a validation error, never the
decision allowed=false. -/
theorem Check_condition_evaluation_failure_is_validation_error :
    serverCheck (Except.error ResolveError.errEvaluationFailed)
        = Except.error ServerError.validationError ∧
      ∀ resp : CheckResponse,
        serverCheck (Except.error ResolveError.errEvaluationFailed)
          ≠ Except.ok resp := by
  refine ⟨rfl, fun resp h => ?_⟩
  simp [serverCheck] at h

/-- Claim C8: a ModelNotFound failure from the typesystem resolver surfaces
as LatestAuthorizationModelNotFound for the store exactly when the request
supplied no model ID, and as AuthorizationModelNotFound for the supplied ID
otherwise; an InvalidModel failure surfaces as a validation error. -/
theorem resolveTypesystem_distinguishes_not_found (storeID modelID : String) :
    (modelID = "" →
      resolveTypesystem storeID modelID (Except.error TypesystemError.errModelNotFound)
        = Except.error (ServerError.latestAuthorizationModelNotFound storeID)) ∧
    (modelID ≠ "" →
      resolveTypesystem storeID modelID (Except.error TypesystemError.errModelNotFound)
        = Except.error (ServerError.authorizationModelNotFound modelID)) ∧
    resolveTypesystem storeID modelID (Except.error TypesystemError.errInvalidModel)
      = Except.error ServerError.validationError := by
  refine ⟨?_, ?_, rfl⟩
  · intro h
    simp [resolveTypesystem, h]
  · intro h
    simp [resolveTypesystem, h]

/-- Witness for C8: a concrete store, with and without a model ID. -/
theorem resolveTypesystem_distinguishes_not_found_witness :
    resolveTypesystem exampleStoreID "" (Except.error TypesystemError.errModelNotFound)
        = Except.error (ServerError.latestAuthorizationModelNotFound exampleStoreID) ∧
      resolveTypesystem exampleStoreID exampleModelID
          (Except.error TypesystemError.errModelNotFound)
        = Except.error (ServerError.authorizationModelNotFound exampleModelID) :=
  ⟨(resolveTypesystem_distinguishes_not_found exampleStoreID "").1 rfl,
   (resolveTypesystem_distinguishes_not_found exampleStoreID exampleModelID).2.1
     (by simp [exampleModelID])⟩

/-- Witness for C5: the evaluation failure outcome at the concrete denied
decision. -/
theorem Check_condition_evaluation_failure_is_validation_error_witness :
    serverCheck (Except.error ResolveError.errEvaluationFailed)
        = Except.error ServerError.validationError ∧
      serverCheck (Except.error ResolveError.errEvaluationFailed)
        ≠ Except.ok { allowed := false } :=
  ⟨Check_condition_evaluation_failure_is_validation_error.1,
   Check_condition_evaluation_failure_is_validation_error.2 { allowed := false }⟩
